import Mathlib

/-!
Verification of the data-bridge merge engine: shallow embedding of the
column type detector, mapping validator, text-similarity primitives and the
multi-file data merger, together with proofs of the specified properties.

Modelling conventions (kept uniform across the file):
* A cell value (TS type `string | number | Date | null`) is the tagged union
  `Value`.  JavaScript numbers are modelled as integers (`Int`); every input
  exercised by the theorems is integral and no claim depends on
  floating-point behaviour, so fractional parsing (`parseFloat` of a
  fractional literal, `toFixed` rounding) is outside the model.
* A JavaScript `Date` is represented by its ISO-8601 string
  (`Date.prototype.toISOString()`), which determines both its JSON
  serialisation and its identity for the purposes of this engine.
* JavaScript `Map` objects are modelled as association lists in insertion
  order: `mapSet` overwrites the value of an existing key in place (keeping
  its position) and appends fresh keys at the end, exactly like `Map.set`;
  `mapGet`/`mapHas` model `Map.get`/`Map.has`.
* JavaScript `Set` objects are modelled as duplicate-free lists in insertion
  order (`jsSetList`).
* Indexing `row[i]` beyond a row's length yields `undefined` in JavaScript;
  where the source tests `!== null` against such a read the model uses
  `Option Value` (`none` = `undefined`), and where the source immediately
  subjects the read to a falsy test or stores it into an aligned row the
  model collapses `undefined` to `null` (both behave identically there).
* Fields that the source populates from the ambient clock (`Date.now()`,
  `new Date()`) are threaded through an explicit `now : Int` parameter.
-/

/-- Cell value: the TS union `string | number | Date | null`.
`date iso` carries the value of `toISOString()` of the `Date` object. -/
inductive Value where
  | str (s : String)
  | num (n : Int)
  | date (iso : String)
  | vnull
  deriving DecidableEq, Repr

/-- A data row is a sequence of cell values. -/
abbrev Row := List Value

/-- JavaScript truthiness of a cell value: `null`, `0` and `""` are falsy;
`Date` objects are always truthy. -/
def jsFalsy : Value → Bool
  | .vnull => true
  | .num n => n = 0
  | .str s => s = ""
  | .date _ => false

/-- The human-readable rendering `Date.prototype.toString()`.  Its exact text
is locale- and timezone-dependent in JavaScript; it is modelled here by an
injective placeholder (no theorem in this file depends on the exact text). -/
def dateDisplay (iso : String) : String := "Date(" ++ iso ++ ")"

/-- JavaScript `String(v)` for a cell value.  For integral numbers the JS
rendering is the decimal numeral, matching `Int`'s `toString`. -/
def jsToString : Value → String
  | .str s => s
  | .num n => toString n
  | .date iso => dateDisplay iso
  | .vnull => "null"

/-- JSON string escaping restricted to the two characters that JSON must
escape and that can occur in this development's strings (backslash and
double quote); other characters are emitted verbatim. -/
def jsonEscapeChar (c : Char) : String :=
  if c = '\\' then "\\\\"
  else if c = '"' then "\\\""
  else String.singleton c

/-- Escape a string for inclusion in a JSON string literal. -/
def jsonEscape (s : String) : String :=
  String.join (s.data.map jsonEscapeChar)

/-- `JSON.stringify` of a single cell value.  A `Date` serialises (via
`toJSON`) as its ISO string in quotes — the same text as a string cell whose
contents equal that ISO string, which is the collision explored by the
duplicate-handling claim. -/
def jsonOfValue : Value → String
  | .str s => "\"" ++ jsonEscape s ++ "\""
  | .num n => toString n
  | .date iso => "\"" ++ iso ++ "\""
  | .vnull => "null"

/-- `JSON.stringify(row)` for a row (array of cell values). -/
def rowKey (row : Row) : String :=
  "[" ++ String.intercalate "," (row.map jsonOfValue) ++ "]"

/-- `Map.get(k)` on an association list. -/
def mapGet {α : Type} (m : List (String × α)) (k : String) : Option α :=
  (m.find? (fun p => p.1 = k)).map (·.2)

/-- `Map.has(k)` on an association list. -/
def mapHas {α : Type} (m : List (String × α)) (k : String) : Bool :=
  (m.find? (fun p => p.1 = k)).isSome

/-- `Map.set(k, v)`: overwrite an existing key in place, else append. -/
def mapSet {α : Type} (m : List (String × α)) (k : String) (v : α) : List (String × α) :=
  if mapHas m k then m.map (fun p => if p.1 = k then (k, v) else p)
  else m ++ [(k, v)]

/-- Adding one element to a JS `Set` (insertion order, first occurrence kept). -/
def jsSetInsert {α : Type} [DecidableEq α] (acc : List α) (x : α) : List α :=
  if x ∈ acc then acc else acc ++ [x]

/-- The contents of `new Set(l)` in insertion order. -/
def jsSetList {α : Type} [DecidableEq α] (l : List α) : List α :=
  l.foldl jsSetInsert []

/-! ## Text utilities (`text-utils.ts`)

Only `jaccardSimilarity` is needed by the claims.  Token sequences are
lists of strings; `new Set(words)` is `jsSetList`. -/

/-- `jaccardSimilarity(words1, words2)` from `text-utils.ts`:
`|intersection| / |union|` over the two token sets, `0` when the union is
empty. -/
def jaccardSimilarity (words1 words2 : List String) : ℚ :=
  let set1 := jsSetList words1
  let set2 := jsSetList words2
  let inter := set1.filter (fun x => x ∈ set2)
  let union := jsSetList (set1 ++ set2)
  if union.length = 0 then 0 else (inter.length : ℚ) / (union.length : ℚ)

/-! ## Column type detection (`file-utils.ts`, `detectColumnTypes`)

The detector receives the typed rows.  A cell is read with `row[index]`,
which in JavaScript yields `undefined` when the row is shorter than the
header list; this is modelled with `Option Value` (`none` = `undefined`).
The filter `cell !== null` removes `null` cells but keeps `undefined` ones,
exactly as in the source. -/

/-- Semantic column type tags (TS `DataType`). -/
inductive DataType where
  | string | number | date | boolean | mixed | unknown
  deriving DecidableEq, Repr

/-- Column descriptor (TS `ColumnType`).  `confidence` is an exact rational
standing for the JS float (all values produced here are exact or compared
only to themselves). -/
structure ColumnType where
  name : String
  type : DataType
  confidence : ℚ
  samples : List (Option Value)
  nullCount : Int
  uniqueCount : Nat
  deriving DecidableEq, Repr

/-- `rows.map(row => row[index]).filter(cell => cell !== null)`: the non-null
cells of one column, `none` standing for `undefined` (short row). -/
def columnCellsAt (rows : List Row) (idx : Nat) : List (Option Value) :=
  (rows.map (fun row => row[idx]?)).filter (fun c => c ≠ some Value.vnull)

/-- Count of cells whose runtime type is `string`. -/
def stringCountOf (cells : List (Option Value)) : Nat :=
  cells.countP (fun c => match c with | some (.str _) => true | _ => false)

/-- Count of cells whose runtime type is `number`. -/
def numberCountOf (cells : List (Option Value)) : Nat :=
  cells.countP (fun c => match c with | some (.num _) => true | _ => false)

/-- Count of cells that are `Date` instances. -/
def dateCountOf (cells : List (Option Value)) : Nat :=
  cells.countP (fun c => match c with | some (.date _) => true | _ => false)

/-- Dominant runtime kind and its count, scanning the fixed entry order
`string, number, date, boolean` starting from `string` and replacing only on
a strictly greater count (ties favour the earlier kind).  The cell union has
no boolean inhabitant, so the boolean count is the constant `0`. -/
def dominantOf (cells : List (Option Value)) : DataType × Nat :=
  let booleanCount : Nat := 0
  let d0 := (DataType.string, stringCountOf cells)
  let d1 := if numberCountOf cells > d0.2 then (DataType.number, numberCountOf cells) else d0
  let d2 := if dateCountOf cells > d1.2 then (DataType.date, dateCountOf cells) else d1
  if booleanCount > d2.2 then (DataType.boolean, booleanCount) else d2

/-- Descriptor of the column at `idx` named `header`: dominant kind,
`confidence = maxCount / |non-null cells|` (`0` for no cells), overridden to
`mixed` with confidence `0.5` when `confidence < 0.8` and more than 5 cells. -/
def columnDescriptor (header : String) (idx : Nat) (rows : List Row) : ColumnType :=
  let cells := columnCellsAt rows idx
  let dom := dominantOf cells
  let confidence : ℚ := if cells.length > 0 then (dom.2 : ℚ) / (cells.length : ℚ) else 0
  let final :=
    if confidence < 4/5 ∧ cells.length > 5 then (DataType.mixed, (1 : ℚ)/2)
    else (dom.1, confidence)
  { name := header
    type := final.1
    confidence := final.2
    samples := cells.take 10
    nullCount := (rows.length : Int) - (cells.length : Int)
    uniqueCount := (jsSetList cells).length }

/-- `detectColumnTypes(headers, rows)` from `file-utils.ts`: one descriptor
per header, in header order. -/
def detectColumnTypes (headers : List String) (rows : List Row) : List ColumnType :=
  headers.enum.map (fun p => columnDescriptor p.2 p.1 rows)

/-! ## Column mappings and validation (`column-mapping.ts`) -/

/-- Per-entry value transformation tag; `tnone` is the literal `'none'`
(a truthy string in the source, hence distinct from an absent transform). -/
inductive Transform where
  | tnone | uppercase | lowercase | date_format | number_format
  deriving DecidableEq, Repr

/-- Transform parameters (`transformParams?: Record<string, ...>`): the two
keys the source reads.  `decimals` is kept a natural number — a negative
`toFixed` argument throws in JS and is outside the model. -/
structure TransformParams where
  format : Option String
  decimals : Option Nat
  deriving DecidableEq, Repr

/-- One column mapping entry. -/
structure MappingEntry where
  sourceColumn : String
  targetColumn : String
  transform : Option Transform
  transformParams : Option TransformParams
  deriving DecidableEq, Repr

/-- A column mapping (`ColumnMapping`); only the fields the merge and
validation paths read are modelled. -/
structure ColumnMapping where
  id : String
  sourceFileId : String
  targetFileId : Option String
  mappings : List MappingEntry
  deriving DecidableEq, Repr

/-- Parsed file contents; only the fields the engine reads are modelled. -/
structure ParsedData where
  headers : List String
  rows : List Row
  deriving DecidableEq, Repr

/-- A processed file: its id and (possibly absent) parsed data. -/
structure ProcessedFile where
  id : String
  parsedData : Option ParsedData
  deriving DecidableEq, Repr

namespace MappingGenerator

/-- Error text for a missing source column. -/
def sourceColumnError (c : String) : String :=
  "Source column \"" ++ c ++ "\" does not exist in file"

/-- Error text for a missing target column. -/
def targetColumnError (c : String) : String :=
  "Target column \"" ++ c ++ "\" does not exist in target file"

/-- Error text for a target column mapped more than once. -/
def duplicateTargetError (c : String) : String :=
  "Target column \"" ++ c ++ "\" is mapped multiple times"

/-- The occurrence-count map built with `Map.set(c, (get(c) ?? 0) + 1)`. -/
def countFold (l : List String) : List (String × Nat) :=
  l.foldl (fun m s => mapSet m s ((mapGet m s).getD 0 + 1)) []

/-- `MappingGenerator.validateMapping` from `column-mapping.ts`: source
columns must exist, target columns must exist when a target file is given,
and no target column may be mapped twice; failures are returned as strings. -/
def validateMapping (mapping : ColumnMapping) (sourceFile : ProcessedFile)
    (targetFile : Option ProcessedFile) : List String :=
  match sourceFile.parsedData with
  | none => ["Source file has no parsed data"]
  | some pd =>
    let sourceColumns := pd.headers
    let errs1 := mapping.mappings.foldl
      (fun es mp =>
        if mp.sourceColumn ∈ sourceColumns then es
        else es ++ [sourceColumnError mp.sourceColumn]) []
    let errs2 :=
      match targetFile with
      | some tf =>
        match tf.parsedData with
        | some tpd => mapping.mappings.foldl
            (fun es mp =>
              if mp.targetColumn ∈ tpd.headers then es
              else es ++ [targetColumnError mp.targetColumn]) []
        | none => []
      | none => []
    let targetColumnCounts := countFold (mapping.mappings.map (·.targetColumn))
    let errs3 := (targetColumnCounts.filter (fun p => 1 < p.2)).map
      (fun p => duplicateTargetError p.1)
    errs1 ++ errs2 ++ errs3

end MappingGenerator

/-! ## Data transformation (`data-merging.ts`, `DataTransformer`)

The date-fns calls (`parseISO`, `format`) are external-library calls; they
are modelled as total deterministic functions that agree with the library on
the default `yyyy-MM-dd` pattern for date-only inputs and are injective
placeholders elsewhere.  No theorem depends on the placeholder text. -/

/-- Shape test for an ISO-like date string `YYYY-MM-DD...` (the prefix the
model recognises for `parseISO`). -/
def isIsoShape (s : String) : Bool :=
  match s.data with
  | y1 :: y2 :: y3 :: y4 :: sep1 :: m1 :: m2 :: sep2 :: d1 :: d2 :: _ =>
      y1.isDigit && y2.isDigit && y3.isDigit && y4.isDigit && sep1 == '-' &&
      m1.isDigit && m2.isDigit && sep2 == '-' && d1.isDigit && d2.isDigit
  | _ => false

/-- Modelled `parseISO`: a date-only ISO string parses to midnight UTC of
that day; anything else is an invalid date (`none`). -/
def parseISOOpt (s : String) : Option String :=
  if isIsoShape s then some (s.take 10 ++ "T00:00:00.000Z") else none

/-- Modelled date-fns `format`: exact for the default `yyyy-MM-dd` pattern;
other patterns map to an injective placeholder. -/
def dateFormat (iso pattern : String) : String :=
  if pattern = "yyyy-MM-dd" then iso.take 10
  else "formatted:" ++ pattern ++ ":" ++ iso

/-- `(params?.format as string) || 'yyyy-MM-dd'` (empty string is falsy). -/
def formatParamOf (params : Option TransformParams) : String :=
  match params with
  | some p =>
    match p.format with
    | some f => if f = "" then "yyyy-MM-dd" else f
    | none => "yyyy-MM-dd"
  | none => "yyyy-MM-dd"

/-- `(params?.decimals as number) || 2` (zero is falsy). -/
def decimalsParamOf (params : Option TransformParams) : Nat :=
  match params with
  | some p =>
    match p.decimals with
    | some d => if d = 0 then 2 else d
    | none => 2
  | none => 2

/-- Digits of a decimal prefix. -/
def takeDigits (cs : List Char) : List Char := cs.takeWhile (fun c => c.isDigit)

/-- Numeric value of a digit list. -/
def digitsToNat (cs : List Char) : Nat := cs.foldl (fun a c => a * 10 + (c.toNat - 48)) 0

/-- Modelled `parseFloat`, restricted to the integer part of the literal
(`Value.num` is integral); `none` is the NaN outcome. -/
def jsParseFloatInt (s : String) : Option Int :=
  let cs := s.data.dropWhile (fun c => c == ' ' || c == '\t' || c == '\n' || c == '\r')
  match cs with
  | '-' :: rest =>
      let ds := takeDigits rest
      if ds.isEmpty then none else some (-(digitsToNat ds : Int))
  | '+' :: rest =>
      let ds := takeDigits rest
      if ds.isEmpty then none else some ((digitsToNat ds : Int))
  | _ =>
      let ds := takeDigits cs
      if ds.isEmpty then none else some ((digitsToNat ds : Int))

namespace DataTransformer

/-- `DataTransformer.applyTransformation`: case folding, date reformatting
and numeric rounding of a single non-null value.  `Number(n.toFixed(d))` is
the identity on integral values for the positive `d` the model admits. -/
def applyTransformation (value : Value) (t : Transform)
    (params : Option TransformParams) : Value :=
  if value = Value.vnull then Value.vnull
  else
    match t with
    | .uppercase => .str (jsToString value).toUpper
    | .lowercase => .str (jsToString value).toLower
    | .date_format =>
      match value with
      | .date iso => .str (dateFormat iso (formatParamOf params))
      | .str s =>
        match parseISOOpt s with
        | some iso => .str (dateFormat iso (formatParamOf params))
        | none => .str s
      | _ => .str (jsToString value)
    | .number_format =>
      match value with
      | .num n => .num n
      | .str s =>
        match jsParseFloatInt s with
        | some m => .num m
        | none => .str s
      | _ => value
    | .tnone => value

/-- Result of `transformData`: new headers and rows. -/
structure TransformedData where
  headers : List String
  data : List Row
  deriving DecidableEq, Repr

/-- `DataTransformer.transformData`: output headers are the mapping's target
columns in order; each output cell is the source cell (null when the source
column is absent), transformed when non-null and a transform is present.
The source also builds a `mappingMap` keyed by source column which it never
reads afterwards; that dead store is omitted. -/
def transformData (data : List Row) (headers : List String)
    (mapping : List MappingEntry) : TransformedData :=
  let columnIndexMap := headers.enum.foldl (fun m p => mapSet m p.2 p.1) []
  let transformedHeaders := mapping.map (·.targetColumn)
  let transformedData := data.map (fun row =>
    mapping.map (fun mp =>
      let value :=
        match mapGet columnIndexMap mp.sourceColumn with
        | some idx => (row[idx]?).getD Value.vnull
        | none => Value.vnull
      match mp.transform with
      | some t =>
        if value ≠ Value.vnull then applyTransformation value t mp.transformParams
        else value
      | none => value))
  { headers := transformedHeaders, data := transformedData }

end DataTransformer

/-! ## Data merging (`data-merging.ts`, `DataMerger`) -/

/-- Join modes. -/
inductive JoinType where
  | inner | left | right | full
  deriving DecidableEq, Repr

/-- Duplicate-row strategies. -/
inductive DupStrategy where
  | keep_first | keep_last | merge_values
  deriving DecidableEq, Repr

/-- `MergeOptions`.  `maxRows` is kept a natural number (a negative cap
would make `slice` count from the end in JS and is outside the model); the
source's truthiness tests make `joinKey = ""` and `maxRows = 0` behave like
absent options, which the definitions below reproduce. -/
structure MergeOptions where
  joinType : JoinType
  joinKey : Option String
  handleDuplicates : DupStrategy
  validateTypes : Bool
  maxRows : Option Nat
  deriving DecidableEq, Repr

/-- Merge statistics (`MergeResult['stats']`); JS numbers as integers. -/
structure MergeStats where
  totalRows : Int
  mergedRows : Int
  droppedRows : Int
  duplicateRows : Int
  nullValues : Int
  deriving DecidableEq, Repr

/-- A transformed file ready for merging (headers plus rows; the original
file object carried alongside in the source is never read afterwards). -/
structure TransformedFile where
  headers : List String
  data : List Row
  deriving DecidableEq, Repr

/-- A record row of the output dataset: header/value pairs in header order. -/
abbrev RecordRow := List (String × Value)

/-- The merged dataset (`ProcessedDataset`); `createdAt` is the clock value
passed to `mergeFiles`. -/
structure ProcessedDataset where
  id : String
  name : String
  sourceFiles : List String
  headers : List String
  data : List RecordRow
  columnTypes : List ColumnType
  createdAt : Int
  rowCount : Nat
  deriving DecidableEq, Repr

/-- The full result of a merge call. -/
structure MergeResult where
  dataset : ProcessedDataset
  stats : MergeStats
  warnings : List String
  errors : List String
  deriving DecidableEq, Repr

namespace DataMerger

/-- Modelled `String.prototype.localeCompare`, whose exact collation is
locale-dependent in JS: code-point comparison (agreeing with any locale on
the plain lowercase ASCII names the theorems use). -/
def localeCompareModel (a b : String) : Int :=
  match compare a b with
  | .lt => -1
  | .eq => 0
  | .gt => 1

/-- The unified-schema comparator: frequency descending, then name. -/
def schemaCmp (counts : List (String × Nat)) (a b : String) : Int :=
  let ca : Int := ((mapGet counts a).getD 0 : Nat)
  let cb : Int := ((mapGet counts b).getD 0 : Nat)
  let countDiff := cb - ca
  if countDiff ≠ 0 then countDiff else localeCompareModel a b

/-- Stable insertion of `x` after every element comparing `≤ 0` against it
(the position a stable comparator sort assigns). -/
def insertByCmp (cmp : String → String → Int) (x : String) : List String → List String
  | [] => [x]
  | y :: ys => if cmp y x ≤ 0 then y :: insertByCmp cmp x ys else x :: y :: ys

/-- Stable comparator sort (JS `Array.prototype.sort` is stable), as a
structurally recursive insertion sort so that concrete schemas evaluate
inside the kernel. -/
def sortByCmp (cmp : String → String → Int) (l : List String) : List String :=
  l.foldl (fun acc x => insertByCmp cmp x acc) []

/-- `DataMerger.createUnifiedSchema`: count each column across schemas, then
sort by frequency descending with alphabetical tie-break. -/
def createUnifiedSchema (schemas : List (List String)) : List String :=
  let columnCounts := schemas.foldl
    (fun m schema => schema.foldl
      (fun m column => mapSet m column ((mapGet m column).getD 0 + 1)) m) []
  sortByCmp (schemaCmp columnCounts) (columnCounts.map (·.1))

/-- `DataMerger.alignDataToSchema`: project each row onto the unified
headers, `null` for columns the file does not have. -/
def alignDataToSchema (data : List Row) (currentHeaders : List String)
    (unifiedHeaders : List String) : List Row :=
  let headerIndexMap := currentHeaders.enum.foldl (fun m p => mapSet m p.2 p.1) []
  data.map (fun row => unifiedHeaders.map (fun header =>
    match mapGet headerIndexMap header with
    | some idx => (row[idx]?).getD Value.vnull
    | none => Value.vnull))

/-- `DataMerger.mergeRows`: an all-null row of schema width, overlaid with
the left row positionally, then with the right row into still-null slots. -/
def mergeRows (leftRow rightRow : Option Row) (headers : List String) : Row :=
  (List.range headers.length).map (fun i =>
    let lv :=
      match leftRow with
      | some lr => (lr[i]?).getD Value.vnull
      | none => Value.vnull
    if lv = Value.vnull then
      match rightRow with
      | some rr => (rr[i]?).getD Value.vnull
      | none => Value.vnull
    else lv)

/-- `String(row[joinKeyIndex] || '')`: the stringified join key of a row,
with falsy key values (null/missing, `0`, `""`) collapsing to `""`. -/
def joinKeyString (idx : Nat) (row : Row) : String :=
  let v := (row[idx]?).getD Value.vnull
  if jsFalsy v then "" else jsToString v

/-- One side's lookup map: `map.set(String(row[idx] || ''), row)` per row in
order, so a later row overwrites an earlier one sharing its key. -/
def buildKeyMap (idx : Nat) (data : List Row) : List (String × Row) :=
  data.foldl (fun m row => mapSet m (joinKeyString idx row) row) []

/-- The switch over the join type in `performKeyBasedJoin`, iterating the
lookup maps in insertion order exactly as `for (const [key, row] of map)`:
`inner` emits matches and counts left misses as dropped; `left`/`right`
emit one merged row per entry of that side; `full` emits every left entry
and then the right entries whose key no left entry processed. -/
def joinFromMaps (leftMap rightMap : List (String × Row)) (headers : List String) :
    JoinType → List Row × Int
  | .inner =>
      (leftMap.filterMap (fun p =>
        match mapGet rightMap p.1 with
        | some rightRow => some (mergeRows (some p.2) (some rightRow) headers)
        | none => none),
       ((leftMap.countP (fun p => !mapHas rightMap p.1) : Nat) : Int))
  | .left =>
      (leftMap.map (fun p => mergeRows (some p.2) (mapGet rightMap p.1) headers), 0)
  | .right =>
      (rightMap.map (fun p => mergeRows (mapGet leftMap p.1) (some p.2) headers), 0)
  | .full =>
      (leftMap.map (fun p => mergeRows (some p.2) (mapGet rightMap p.1) headers) ++
       (rightMap.filter (fun p => !mapHas leftMap p.1)).map
         (fun p => mergeRows none (some p.2) headers), 0)

/-- `DataMerger.performKeyBasedJoin`: returns the joined rows and the
dropped-row count; falls back to concatenation when the join key is not a
unified header. -/
def performKeyBasedJoin (leftData rightData : List Row) (headers : List String)
    (joinKey : String) (joinType : JoinType) : List Row × Int :=
  match headers.findIdx? (fun h => h = joinKey) with
  | none => (leftData ++ rightData, 0)
  | some joinKeyIndex =>
      joinFromMaps (buildKeyMap joinKeyIndex leftData)
        (buildKeyMap joinKeyIndex rightData) headers joinType

/-- Accumulator of the duplicate scan: `seen` maps a row's JSON key to the
emitted position of its first occurrence. -/
structure DedupAcc where
  seen : List (String × Nat)
  result : List Row
  removed : Int
  deriving DecidableEq, Repr

/-- One step of the duplicate scan: a repeated JSON key counts as removed
and (under `keep_last`) replaces the earlier emitted row in place; a fresh
key is appended. -/
def dedupStep (strategy : DupStrategy) (acc : DedupAcc) (row : Row) : DedupAcc :=
  let key := rowKey row
  match mapGet acc.seen key with
  | some prevIndex =>
      { seen := acc.seen
        result :=
          if strategy = DupStrategy.keep_last then acc.result.set prevIndex row
          else acc.result
        removed := acc.removed + 1 }
  | none =>
      { seen := mapSet acc.seen key acc.result.length
        result := acc.result ++ [row]
        removed := acc.removed }

/-- `DataMerger.handleDuplicates`: identity for `keep_first`, else the scan
above (for `merge_values` the source leaves the first occurrence in place,
its comment noting the field-by-field merge is unimplemented). -/
def handleDuplicates (data : List Row) (strategy : DupStrategy) : List Row × Int :=
  if strategy = DupStrategy.keep_first then (data, 0)
  else
    let acc := data.foldl (dedupStep strategy) ⟨[], [], 0⟩
    (acc.result, acc.removed)

/-- Null cells across the merged matrix. -/
def nullCountOf (data : List Row) : Int :=
  data.foldl (fun count row =>
    count + ((row.countP (fun cell => cell = Value.vnull) : Nat) : Int)) 0

/-- The merge pipeline up to (and excluding) the row cap: alignment,
join/concatenation, duplicate handling and the null count.  This portion of
`performMerge` never reads `maxRows`, so it is factored out of the cap. -/
structure PreMerge where
  data : List Row
  totalRows : Int
  droppedRows : Int
  duplicateRows : Int
  nullValues : Int
  deriving DecidableEq, Repr

/-- Everything `performMerge` does before the `maxRows` cap.  For
`inner`/`left` the first file is the accumulator and each further file is
key-joined (when a truthy `joinKey` is set) or appended; for `right`/`full`
all files are concatenated.  (An empty file list cannot reach this point
from `mergeFiles`; the JS code would throw there and the model returns the
empty accumulator.) -/
def performMergeCore (transformedFiles : List TransformedFile)
    (unifiedHeaders : List String) (joinType : JoinType) (joinKey : Option String)
    (dedupStrategy : DupStrategy) : PreMerge :=
  let joined : List Row × Int × Int :=
    if joinType = JoinType.inner ∨ joinType = JoinType.left then
      match transformedFiles with
      | [] => ([], 0, 0)
      | baseFile :: rest =>
        let base := alignDataToSchema baseFile.data baseFile.headers unifiedHeaders
        rest.foldl (fun acc tf =>
          let aligned := alignDataToSchema tf.data tf.headers unifiedHeaders
          match joinKey with
          | some k =>
            if k ≠ "" then
              let j := performKeyBasedJoin acc.1 aligned unifiedHeaders k joinType
              (j.1, acc.2.1 + (tf.data.length : Int), acc.2.2 + j.2)
            else (acc.1 ++ aligned, acc.2.1 + (tf.data.length : Int), acc.2.2)
          | none => (acc.1 ++ aligned, acc.2.1 + (tf.data.length : Int), acc.2.2))
          (base, (baseFile.data.length : Int), 0)
    else
      transformedFiles.foldl (fun acc tf =>
        (acc.1 ++ alignDataToSchema tf.data tf.headers unifiedHeaders,
         acc.2.1 + (tf.data.length : Int), acc.2.2))
        ([], 0, 0)
  let afterDedup :=
    if dedupStrategy ≠ DupStrategy.keep_first then handleDuplicates joined.1 dedupStrategy
    else (joined.1, 0)
  { data := afterDedup.1
    totalRows := joined.2.1
    droppedRows := joined.2.2
    duplicateRows := afterDedup.2
    nullValues := nullCountOf afterDedup.1 }

/-- Result of `performMerge`: the merged matrix and statistics. -/
structure MergeData where
  data : List Row
  stats : MergeStats
  deriving DecidableEq, Repr

/-- `DataMerger.performMerge`: the core pipeline followed by the row cap,
which truncates to the first `maxRows` rows and adds
`totalRows - maxRows` to the dropped count. -/
def performMerge (transformedFiles : List TransformedFile)
    (unifiedHeaders : List String) (options : MergeOptions) : MergeData :=
  let core := performMergeCore transformedFiles unifiedHeaders options.joinType
    options.joinKey options.handleDuplicates
  let capped : List Row × Int :=
    match options.maxRows with
    | some m =>
      if m ≠ 0 ∧ core.data.length > m then
        (core.data.take m, core.droppedRows + (core.totalRows - (m : Int)))
      else (core.data, core.droppedRows)
    | none => (core.data, core.droppedRows)
  { data := capped.1
    stats :=
      { totalRows := core.totalRows
        mergedRows := (capped.1.length : Int)
        droppedRows := capped.2
        duplicateRows := core.duplicateRows
        nullValues := core.nullValues } }

/-- The merged-dataset column detector (`DataMerger.detectColumnTypes`):
`unknown` for an empty non-null column, else the kind holding more than 80%
of the non-null cells, else `mixed` with confidence `0.5`. -/
def mergedColumnDescriptor (header : String) (idx : Nat) (data : List Row) : ColumnType :=
  let columnData := columnCellsAt data idx
  let samples := columnData.take 10
  let result : DataType × ℚ :=
    if columnData.length = 0 then (DataType.unknown, 0)
    else
      let numberCount := numberCountOf columnData
      let dateCount := dateCountOf columnData
      let stringCount := stringCountOf columnData
      if (numberCount : ℚ) / (columnData.length : ℚ) > 4/5 then
        (DataType.number, (numberCount : ℚ) / (columnData.length : ℚ))
      else if (dateCount : ℚ) / (columnData.length : ℚ) > 4/5 then
        (DataType.date, (dateCount : ℚ) / (columnData.length : ℚ))
      else if (stringCount : ℚ) / (columnData.length : ℚ) > 4/5 then
        (DataType.string, (stringCount : ℚ) / (columnData.length : ℚ))
      else (DataType.mixed, 1/2)
  { name := header
    type := result.1
    confidence := result.2
    samples := samples
    nullCount := (data.length : Int) - (columnData.length : Int)
    uniqueCount := (jsSetList columnData).length }

/-- Column descriptors of the merged dataset, one per unified header. -/
def detectMergedColumnTypes (data : List Row) (headers : List String) : List ColumnType :=
  headers.enum.map (fun p => mergedColumnDescriptor p.2 p.1 data)

/-- `DataMerger.convertToRecordFormat`: each row as header/value pairs (the
unified headers are pairwise distinct, so the record keys are exactly the
headers; an out-of-range read would be `undefined` in JS, collapsed to null). -/
def convertToRecordFormat (data : List Row) (headers : List String) : List RecordRow :=
  data.map (fun row => headers.enum.map (fun p => (p.2, (row[p.1]?).getD Value.vnull)))

/-- The error result built in the top-level catch of `mergeFiles`: an
empty-but-well-formed dataset, zeroed statistics, and the failure message in
`errors`. -/
def emptyMergeResult (files : List ProcessedFile) (errors warnings : List String)
    (now : Int) : MergeResult :=
  { dataset :=
      { id := "error-" ++ toString now
        name := "Failed Merge"
        sourceFiles := files.map (·.id)
        headers := []
        data := []
        columnTypes := []
        createdAt := now
        rowCount := 0 }
    stats :=
      { totalRows := 0, mergedRows := 0, droppedRows := 0, duplicateRows := 0,
        nullValues := 0 }
    warnings := warnings
    errors := errors }

/-- `DataMerger.mergeFiles`: validate inputs, transform each mapped file
(recording a warning and skipping mappings whose file is missing or
unparsed), unify the schema, merge, and package the dataset.  The three
`throw` statements of the source are caught by its own top-level catch, so
they appear here as early returns of `emptyMergeResult`; `now` stands for
the ambient clock read by `Date.now()` / `new Date()`. -/
def mergeFiles (files : List ProcessedFile) (mappings : List ColumnMapping)
    (options : MergeOptions) (now : Int) : MergeResult :=
  if files.length = 0 then
    emptyMergeResult files ["No files provided for merging"] [] now
  else if mappings.length = 0 then
    emptyMergeResult files ["No column mappings provided"] [] now
  else
    let tw := mappings.foldl
      (fun (acc : List TransformedFile × List String) mapping =>
        match files.find? (fun f => f.id = mapping.sourceFileId) with
        | some file =>
          match file.parsedData with
          | some pd =>
            let transformed := DataTransformer.transformData pd.rows pd.headers
              mapping.mappings
            (acc.1 ++ [⟨transformed.headers, transformed.data⟩], acc.2)
          | none =>
            (acc.1, acc.2 ++ ["File " ++ mapping.sourceFileId ++ " not found or has no data"])
        | none =>
          (acc.1, acc.2 ++ ["File " ++ mapping.sourceFileId ++ " not found or has no data"]))
      ([], [])
    let transformedFiles := tw.1
    let warnings := tw.2
    if transformedFiles.length = 0 then
      emptyMergeResult files ["No valid files to merge after transformation"] warnings now
    else
      let unifiedHeaders := createUnifiedSchema (transformedFiles.map (·.headers))
      let mr := performMerge transformedFiles unifiedHeaders options
      { dataset :=
          { id := "merged-" ++ toString now
            name := "Merged Dataset (" ++ toString files.length ++ " files)"
            sourceFiles := files.map (·.id)
            headers := unifiedHeaders
            data := convertToRecordFormat mr.data unifiedHeaders
            columnTypes := detectMergedColumnTypes mr.data unifiedHeaders
            createdAt := now
            rowCount := mr.data.length }
        stats := mr.stats
        warnings := warnings
        errors := [] }

/-- The rows a side of a key-based join actually contributes: the last row
for each distinct key, at the key's first-appearance position (the contents
of that side's lookup map). -/
def lastPerKey (idx : Nat) (data : List Row) : List Row :=
  (buildKeyMap idx data).map (·.2)

end DataMerger

/-! ## Concrete inputs used by counterexamples and witnesses -/

/-- An identity column mapping (each header mapped to itself, no transform). -/
def identityMapping (fid : String) (cols : List String) : ColumnMapping :=
  { id := "m-" ++ fid
    sourceFileId := fid
    targetFileId := none
    mappings := cols.map (fun c =>
      { sourceColumn := c, targetColumn := c, transform := none, transformParams := none }) }

/-- Left file of the inner-join example: rows `[{k:"1", v:"a"}]`. -/
def c1file1 : ProcessedFile :=
  { id := "f1", parsedData := some { headers := ["k", "v"], rows := [[.str "1", .str "a"]] } }

/-- Right file of the inner-join example: rows
`[{k:"1", v:"b"}, {k:"2", v:"c"}]`. -/
def c1file2 : ProcessedFile :=
  { id := "f2",
    parsedData := some
      { headers := ["k", "v"], rows := [[.str "1", .str "b"], [.str "2", .str "c"]] } }

/-- Options of the inner-join example: joinKey `"k"`, joinType `inner`. -/
def c1options : MergeOptions :=
  { joinType := .inner, joinKey := some "k", handleDuplicates := .keep_first,
    validateTypes := true, maxRows := none }

/-- The inner-join example evaluated at clock value 0. -/
def c1result : MergeResult :=
  DataMerger.mergeFiles [c1file1, c1file2]
    [identityMapping "f1" ["k", "v"], identityMapping "f2" ["k", "v"]] c1options 0

/-- The epoch instant's ISO string, used for the Date/string JSON collision. -/
def isoEpoch : String := "1970-01-01T00:00:00.000Z"

/-! ## Lemmas about the JS map and set models -/

section JsMapLemmas

variable {α : Type}

@[simp] theorem mapGet_nil (k : String) : mapGet ([] : List (String × α)) k = none := rfl

theorem mapGet_update_ne (m : List (String × α)) (k k' : String) (v : α) (h : k ≠ k') :
    mapGet (m.map (fun p => if p.1 = k then (k, v) else p)) k' = mapGet m k' := by
  induction m with
  | nil => rfl
  | cons p t ih =>
      simp only [List.map_cons]
      by_cases hp : p.1 = k
      · rw [if_pos hp]
        have e1 : decide ((k, v).1 = k') = false := decide_eq_false (by simpa using h)
        have e2 : decide (p.1 = k') = false := decide_eq_false (by rw [hp]; exact h)
        simp only [mapGet, List.find?_cons, e1, e2] at ih ⊢
        exact ih
      · rw [if_neg hp]
        by_cases h2 : p.1 = k'
        · have e2 : decide (p.1 = k') = true := decide_eq_true h2
          simp only [mapGet, List.find?_cons, e2]
        · have e2 : decide (p.1 = k') = false := decide_eq_false h2
          simp only [mapGet, List.find?_cons, e2] at ih ⊢
          exact ih

theorem mapGet_update_eq (m : List (String × α)) (k : String) (v : α) (h : mapHas m k = true) :
    mapGet (m.map (fun p => if p.1 = k then (k, v) else p)) k = some v := by
  induction m with
  | nil => simp [mapHas] at h
  | cons p t ih =>
      simp only [List.map_cons]
      by_cases hp : p.1 = k
      · rw [if_pos hp]
        simp [mapGet, List.find?_cons]
      · rw [if_neg hp]
        have e2 : decide (p.1 = k) = false := decide_eq_false hp
        simp only [mapHas, List.find?_cons, e2] at h
        simp only [mapGet, List.find?_cons, e2]
        exact ih h

theorem mapGet_mapSet (m : List (String × α)) (k k' : String) (v : α) :
    mapGet (mapSet m k v) k' = if k = k' then some v else mapGet m k' := by
  unfold mapSet
  by_cases hhas : mapHas m k
  · rw [if_pos hhas]
    by_cases hk : k = k'
    · subst hk; rw [if_pos rfl]; exact mapGet_update_eq m k v hhas
    · rw [if_neg hk]; exact mapGet_update_ne m k k' v hk
  · rw [if_neg hhas]
    have hfind : m.find? (fun p => p.1 = k) = none :=
      Option.not_isSome_iff_eq_none.mp (by simpa [mapHas] using hhas)
    by_cases hk : k = k'
    · subst hk
      rw [if_pos rfl]
      simp [mapGet, List.find?_append, hfind, List.find?_cons]
    · rw [if_neg hk]
      have e2 : decide ((k, v).1 = k') = false := decide_eq_false (by simpa using hk)
      simp [mapGet, List.find?_append, List.find?_cons, e2]

theorem mapHas_iff_mapGet_isSome (m : List (String × α)) (k : String) :
    mapHas m k = (mapGet m k).isSome := by
  unfold mapHas mapGet
  cases m.find? (fun p => p.1 = k) <;> rfl

end JsMapLemmas

section JsSetLemmas

variable {α : Type} [DecidableEq α]

theorem mem_jsSetInsert (acc : List α) (x y : α) :
    y ∈ jsSetInsert acc x ↔ y ∈ acc ∨ y = x := by
  unfold jsSetInsert
  by_cases h : x ∈ acc
  · rw [if_pos h]
    constructor
    · exact fun hy => Or.inl hy
    · rintro (hy | rfl) <;> assumption
  · rw [if_neg h]
    simp [List.mem_append]

theorem mem_jsSetList_aux (l : List α) (acc : List α) (y : α) :
    y ∈ l.foldl jsSetInsert acc ↔ y ∈ acc ∨ y ∈ l := by
  induction l generalizing acc with
  | nil => simp
  | cons a t ih =>
      simp only [List.foldl_cons, ih, mem_jsSetInsert, List.mem_cons]
      tauto

theorem mem_jsSetList (l : List α) (y : α) : y ∈ jsSetList l ↔ y ∈ l := by
  unfold jsSetList
  rw [mem_jsSetList_aux]
  simp

theorem jsSetList_eq_aux (l : List α) (acc : List α) (h : ∀ x ∈ l, x ∈ acc) :
    l.foldl jsSetInsert acc = acc := by
  induction l generalizing acc with
  | nil => rfl
  | cons a t ih =>
      have ha : a ∈ acc := h a (List.mem_cons_self a t)
      simp only [List.foldl_cons, jsSetInsert, if_pos ha]
      exact ih acc (fun x hx => h x (List.mem_cons_of_mem a hx))

theorem jsSetInsert_nodup (acc : List α) (x : α) (h : acc.Nodup) :
    (jsSetInsert acc x).Nodup := by
  unfold jsSetInsert
  by_cases hx : x ∈ acc
  · rwa [if_pos hx]
  · rw [if_neg hx, ← List.concat_eq_append]
    exact List.Nodup.concat hx h

theorem jsSetList_nodup_aux (l : List α) (acc : List α) (h : acc.Nodup) :
    (l.foldl jsSetInsert acc).Nodup := by
  induction l generalizing acc with
  | nil => exact h
  | cons a t ih => exact ih _ (jsSetInsert_nodup acc a h)

theorem jsSetList_nodup (l : List α) : (jsSetList l).Nodup :=
  jsSetList_nodup_aux l [] List.nodup_nil

theorem foldl_jsSetInsert_fresh (l : List α) (acc : List α)
    (hn : l.Nodup) (hd : ∀ x ∈ l, x ∉ acc) :
    l.foldl jsSetInsert acc = acc ++ l := by
  induction l generalizing acc with
  | nil => simp
  | cons a t ih =>
      have ha : a ∉ acc := hd a (List.mem_cons_self a t)
      simp only [List.foldl_cons, jsSetInsert, if_neg ha]
      rw [ih (acc ++ [a]) (List.Nodup.of_cons hn)]
      · simp
      · intro x hx
        rw [List.mem_append, List.mem_singleton]
        rintro (hacc | rfl)
        · exact hd x (List.mem_cons_of_mem a hx) hacc
        · exact (List.nodup_cons.mp hn).1 hx

theorem jsSetList_of_nodup (l : List α) (h : l.Nodup) : jsSetList l = l := by
  unfold jsSetList
  rw [foldl_jsSetInsert_fresh l [] h (by simp)]
  simp

theorem jsSetList_append_subset (l1 l2 : List α) (h : ∀ x ∈ l2, x ∈ l1) :
    jsSetList (jsSetList l1 ++ l2) = jsSetList l1 := by
  unfold jsSetList
  rw [List.foldl_append]
  have h1 : (jsSetList l1).foldl jsSetInsert [] = jsSetList l1 := by
    conv_lhs => rw [show (jsSetList l1).foldl jsSetInsert [] = jsSetList (jsSetList l1) from rfl]
    exact jsSetList_of_nodup _ (jsSetList_nodup l1)
  rw [show List.foldl jsSetInsert [] l1 = jsSetList l1 from rfl] at *
  rw [h1]
  exact jsSetList_eq_aux l2 (jsSetList l1) (fun x hx => (mem_jsSetList l1 x).mpr (h x hx))

end JsSetLemmas

/-! ## Claim C8: Jaccard similarity -/

/-- Claim C8, counterexample: for `A = B = []` the token sets are equal (both
empty), yet `jaccardSimilarity` returns `0`, not `1.0` — the code returns `0`
whenever the union is empty, which contradicts the claim's unconditional
"equal token sets give 1.0". -/
theorem c8_jaccard_counterexample :
    jsSetList ([] : List String) = jsSetList ([] : List String) ∧
    jaccardSimilarity [] [] = 0 ∧ ¬(jaccardSimilarity [] [] = 1) := by
  refine ⟨rfl, by decide, by decide⟩

/-- Claim C8 (amended): for token sequences with disjoint token sets the
similarity is `0` (in particular when the union is empty), and for equal
token sets it is `1.0` provided the sets are nonempty (for two empty
sequences the code returns `0`). -/
theorem c8_jaccard_amended (words1 words2 : List String) :
    ((∀ x ∈ words1, x ∉ words2) → jaccardSimilarity words1 words2 = 0) ∧
    ((∀ x, x ∈ words1 ↔ x ∈ words2) → words1 ≠ [] →
      jaccardSimilarity words1 words2 = 1) := by
  constructor
  · intro hdisj
    simp only [jaccardSimilarity]
    have hinter : (jsSetList words1).filter (fun x => x ∈ jsSetList words2) = [] := by
      rw [List.filter_eq_nil_iff]
      intro a ha
      have h1 : a ∈ words1 := (mem_jsSetList words1 a).mp ha
      simp only [decide_eq_true_eq]
      intro h2
      exact hdisj a h1 ((mem_jsSetList words2 a).mp h2)
    rw [hinter]
    split <;> simp
  · intro hiff hne
    simp only [jaccardSimilarity]
    have hsub : ∀ x ∈ jsSetList words2, x ∈ words1 := fun x hx =>
      (hiff x).mpr ((mem_jsSetList words2 x).mp hx)
    have hunion : jsSetList (jsSetList words1 ++ jsSetList words2) = jsSetList words1 :=
      jsSetList_append_subset words1 (jsSetList words2) hsub
    have hfilter : (jsSetList words1).filter (fun x => x ∈ jsSetList words2) =
        jsSetList words1 := by
      rw [List.filter_eq_self]
      intro a ha
      have h1 : a ∈ words2 := (hiff a).mp ((mem_jsSetList words1 a).mp ha)
      simp only [decide_eq_true_eq]
      exact (mem_jsSetList words2 a).mpr h1
    obtain ⟨a, t, rfl⟩ : ∃ a t, words1 = a :: t := by
      cases words1 with
      | nil => exact absurd rfl hne
      | cons a t => exact ⟨a, t, rfl⟩
    have hmem : a ∈ jsSetList (a :: t) := (mem_jsSetList _ a).mpr (List.mem_cons_self a t)
    have hlen : (jsSetList (a :: t)).length ≠ 0 := by
      intro h0
      rw [List.length_eq_zero] at h0
      rw [h0] at hmem
      exact List.not_mem_nil a hmem
    rw [hunion, hfilter, if_neg hlen]
    exact div_self (Nat.cast_ne_zero.mpr hlen)

/-- Claim C8, witness for the amended theorem at concrete inputs:
disjoint sets give 0; equal nonempty sets give 1. -/
theorem c8_jaccard_amended_witness :
    jaccardSimilarity ["a", "b"] ["c"] = 0 ∧
    jaccardSimilarity ["a", "b", "a"] ["b", "a"] = 1 := by
  constructor
  · exact (c8_jaccard_amended ["a", "b"] ["c"]).1 (by decide)
  · refine (c8_jaccard_amended ["a", "b", "a"] ["b", "a"]).2 ?_ (by decide)
    intro x
    simp only [List.mem_cons, List.not_mem_nil, or_false]
    tauto

/-! ## Claims C3 and C4: the column type detector -/

theorem detectColumnTypes_getElem? (headers : List String) (rows : List Row) (i : Nat) :
    (detectColumnTypes headers rows)[i]? =
      (headers[i]?).map (fun h => columnDescriptor h i rows) := by
  unfold detectColumnTypes
  rw [List.getElem?_map, List.getElem?_enum]
  cases headers[i]? <;> rfl

theorem columnCellsAt_all_null (rows : List Row) (i : Nat)
    (h : ∀ row ∈ rows, row[i]? = some Value.vnull) :
    columnCellsAt rows i = [] := by
  unfold columnCellsAt
  rw [List.filter_eq_nil_iff]
  intro a ha
  rw [List.mem_map] at ha
  obtain ⟨row, hrow, rfl⟩ := ha
  rw [h row hrow]
  simp

theorem dominantOf_ne_unknown (cells : List (Option Value)) :
    ¬((dominantOf cells).1 = DataType.unknown) := by
  unfold dominantOf
  dsimp only
  split_ifs <;> decide

theorem columnDescriptor_type_ne_unknown (header : String) (idx : Nat) (rows : List Row) :
    ¬((columnDescriptor header idx rows).type = DataType.unknown) := by
  simp only [columnDescriptor]
  split_ifs <;> first | decide | exact dominantOf_ne_unknown _

theorem columnDescriptor_eval_nil (header : String) (idx : Nat) (rows : List Row)
    (hc : columnCellsAt rows idx = []) :
    (columnDescriptor header idx rows).type = DataType.string ∧
    (columnDescriptor header idx rows).confidence = 0 := by
  simp only [columnDescriptor, hc]
  norm_num [dominantOf, stringCountOf, numberCountOf, dateCountOf]

theorem columnDescriptor_eval_dominant (header : String) (idx : Nat) (rows : List Row)
    (hpos : 0 < (columnCellsAt rows idx).length)
    (hcond : ¬(((dominantOf (columnCellsAt rows idx)).2 : ℚ) /
        ((columnCellsAt rows idx).length : ℚ) < 4/5 ∧ (columnCellsAt rows idx).length > 5)) :
    (columnDescriptor header idx rows).type = (dominantOf (columnCellsAt rows idx)).1 ∧
    (columnDescriptor header idx rows).confidence =
      ((dominantOf (columnCellsAt rows idx)).2 : ℚ) / ((columnCellsAt rows idx).length : ℚ) := by
  simp only [columnDescriptor, if_pos hpos, if_neg hcond]
  simp

/-- Claim C3, counterexample: a column whose only cell is null gets
inferredType `string` (with confidence `0`), not `unknown` — the standalone
detector's dominant-kind scan defaults to `string` and never produces
`unknown`. -/
theorem c3_unknown_counterexample :
    ((detectColumnTypes ["a"] [[Value.vnull]]).map ColumnType.type = [DataType.string]) ∧
    ¬((detectColumnTypes ["a"] [[Value.vnull]]).map ColumnType.type = [DataType.unknown]) := by
  have hc : columnCellsAt [[Value.vnull]] 0 = [] := by decide
  have he := columnDescriptor_eval_nil "a" 0 [[Value.vnull]] hc
  have hl : detectColumnTypes ["a"] [[Value.vnull]] =
      [columnDescriptor "a" 0 [[Value.vnull]]] := rfl
  rw [hl]
  refine ⟨by simp [he.1], by simp [he.1]⟩

/-- Claim C3 (amended): for every column whose cells are all null the
detector assigns confidence `0` with inferredType `string` (not `unknown`),
and the tag `unknown` is never assigned by `detectColumnTypes` at all. -/
theorem c3_all_null_amended :
    (∀ (headers : List String) (rows : List Row) (i : Nat), i < headers.length →
      (∀ row ∈ rows, row[i]? = some Value.vnull) →
      ((detectColumnTypes headers rows)[i]?).map (fun d => (d.type, d.confidence)) =
        some (DataType.string, 0)) ∧
    (∀ (headers : List String) (rows : List Row) (d : ColumnType),
      d ∈ detectColumnTypes headers rows → ¬(d.type = DataType.unknown)) := by
  constructor
  · intro headers rows i h hnull
    have hc : columnCellsAt rows i = [] := columnCellsAt_all_null rows i hnull
    have he := columnDescriptor_eval_nil (headers.get ⟨i, h⟩) i rows hc
    rw [detectColumnTypes_getElem?, List.getElem?_eq_getElem h]
    simp only [Option.map_some', Option.some.injEq, Prod.mk.injEq]
    exact ⟨he.1, he.2⟩
  · intro headers rows d hd
    unfold detectColumnTypes at hd
    rw [List.mem_map] at hd
    obtain ⟨p, hp, rfl⟩ := hd
    exact columnDescriptor_type_ne_unknown p.2 p.1 rows

/-- Claim C3, witness: the amended theorem applied to a concrete one-column
file whose two cells are both null. -/
theorem c3_all_null_amended_witness :
    ((detectColumnTypes ["a"] [[Value.vnull], [Value.vnull]])[0]?).map
        (fun d => (d.type, d.confidence)) = some (DataType.string, 0) :=
  c3_all_null_amended.1 ["a"] [[Value.vnull], [Value.vnull]] 0 (by decide) (by decide)

/-- Claim C4, counterexample: a column with exactly 5 non-null values whose
dominant fraction is 3/5 < 0.8 keeps type `string` with confidence `3/5`
(the `mixed` override requires strictly more than 5 non-null values, not at
least 5). -/
theorem c4_mixed_counterexample :
    ((detectColumnTypes ["a"] [[.str "x"], [.str "y"], [.str "z"], [.num 1], [.num 2]]).map
        (fun d => (d.type, d.confidence)) = [(DataType.string, 3/5)]) ∧
    ¬((detectColumnTypes ["a"] [[.str "x"], [.str "y"], [.str "z"], [.num 1], [.num 2]]).map
        (fun d => (d.type, d.confidence)) = [(DataType.mixed, 1/2)]) := by
  have hd : dominantOf (columnCellsAt
      [[.str "x"], [.str "y"], [.str "z"], [.num 1], [.num 2]] 0) = (DataType.string, 3) := by
    decide
  have hlen : (columnCellsAt
      [[.str "x"], [.str "y"], [.str "z"], [.num 1], [.num 2]] 0).length = 5 := by decide
  have he := columnDescriptor_eval_dominant "a" 0
    [[.str "x"], [.str "y"], [.str "z"], [.num 1], [.num 2]]
    (by rw [hlen]; norm_num) (by rw [hd, hlen]; norm_num)
  rw [hd, hlen] at he
  have hl : detectColumnTypes ["a"] [[.str "x"], [.str "y"], [.str "z"], [.num 1], [.num 2]] =
      [columnDescriptor "a" 0 [[.str "x"], [.str "y"], [.str "z"], [.num 1], [.num 2]]] := rfl
  rw [hl]
  simp only [List.map_cons, List.map_nil, he.1, he.2]
  norm_num

/-- Claim C4 (amended): for every detected column with strictly more than 5
non-null values whose dominant-kind fraction is below 0.8, the detector
overrides the type to `mixed` and fixes confidence at `0.5`. -/
theorem c4_mixed_amended (headers : List String) (rows : List Row) (i : Nat)
    (h : i < headers.length)
    (hlen : (columnCellsAt rows i).length > 5)
    (hfrac : ((dominantOf (columnCellsAt rows i)).2 : ℚ) /
        ((columnCellsAt rows i).length : ℚ) < 4/5) :
    ((detectColumnTypes headers rows)[i]?).map (fun d => (d.type, d.confidence)) =
      some (DataType.mixed, 1/2) := by
  have hpos : (columnCellsAt rows i).length > 0 := lt_trans (by norm_num) hlen
  rw [detectColumnTypes_getElem?, List.getElem?_eq_getElem h]
  simp only [Option.map_some', Option.some.injEq, Prod.mk.injEq]
  constructor
  · simp only [columnDescriptor, if_pos hpos, if_pos (And.intro hfrac hlen)]
  · simp only [columnDescriptor, if_pos hpos, if_pos (And.intro hfrac hlen)]

/-- Membership characterisation of accumulate-error folds of the shape
used by `validateMapping`. -/
theorem mem_foldl_errs {α : Type} (l : List α) (init : List String) (p : α → Prop)
    [DecidablePred p] (f : α → String) (e : String) :
    (e ∈ l.foldl (fun es x => if p x then es else es ++ [f x]) init) ↔
      e ∈ init ∨ ∃ x ∈ l, ¬p x ∧ e = f x := by
  induction l generalizing init with
  | nil => simp
  | cons a t ih =>
      simp only [List.foldl_cons]
      by_cases hp : p a
      · rw [if_pos hp, ih]
        rw [List.exists_mem_cons_iff]
        tauto
      · rw [if_neg hp, ih]
        rw [List.exists_mem_cons_iff]
        simp only [List.mem_append, List.mem_singleton]
        tauto

/-- An accumulate-error fold over elements that all satisfy the check adds
nothing. -/
theorem foldl_errs_nil {α : Type} (l : List α) (init : List String) (p : α → Prop)
    [DecidablePred p] (f : α → String) (h : ∀ x ∈ l, p x) :
    l.foldl (fun es x => if p x then es else es ++ [f x]) init = init := by
  induction l generalizing init with
  | nil => rfl
  | cons a t ih =>
      simp only [List.foldl_cons, if_pos (h a (List.mem_cons_self a t))]
      exact ih init (fun x hx => h x (List.mem_cons_of_mem a hx))

/-- Lookup in the occurrence-count fold, relative to a starting map. -/
theorem countFold_get_aux (l : List String) (m : List (String × Nat)) (s : String) :
    mapGet (l.foldl (fun m x => mapSet m x ((mapGet m x).getD 0 + 1)) m) s =
      if l.countP (fun x => x = s) = 0 then mapGet m s
      else some ((mapGet m s).getD 0 + l.countP (fun x => x = s)) := by
  induction l generalizing m with
  | nil => simp
  | cons a t ih =>
      simp only [List.foldl_cons]
      rw [ih]
      by_cases ha : a = s
      · subst ha
        have hget : mapGet (mapSet m a ((mapGet m a).getD 0 + 1)) a =
            some ((mapGet m a).getD 0 + 1) := by
          rw [mapGet_mapSet]; simp
        rw [hget]
        have h1 : (a :: t).countP (fun x => x = a) = t.countP (fun x => x = a) + 1 := by
          simp [List.countP_cons]
        rw [h1]
        by_cases h0 : t.countP (fun x => x = a) = 0
        · rw [h0]
          simp
        · rw [if_neg h0, if_neg (by omega)]
          simp only [Option.getD_some]
          exact congrArg some (by omega)
      · have hget : mapGet (mapSet m a ((mapGet m a).getD 0 + 1)) s = mapGet m s := by
          rw [mapGet_mapSet, if_neg ha]
        rw [hget]
        have h1 : (a :: t).countP (fun x => x = s) = t.countP (fun x => x = s) := by
          simp [List.countP_cons, ha]
        rw [h1]

/-- Lookup in `countFold`: `some` of the multiplicity for present keys. -/
theorem countFold_get (l : List String) (s : String) :
    mapGet (MappingGenerator.countFold l) s =
      if l.countP (fun x => x = s) = 0 then none
      else some (l.countP (fun x => x = s)) := by
  unfold MappingGenerator.countFold
  rw [countFold_get_aux]
  simp

/-- A successful `mapGet` exhibits a member pair. -/
theorem mapGet_mem {α : Type} (m : List (String × α)) (k : String) (v : α)
    (h : mapGet m k = some v) : (k, v) ∈ m := by
  unfold mapGet at h
  cases hf : m.find? (fun p => p.1 = k) with
  | none => rw [hf] at h; simp at h
  | some p =>
      rw [hf] at h
      simp only [Option.map_some', Option.some.injEq] at h
      have hmem := List.mem_of_find?_eq_some hf
      have hkey : p.1 = k := by simpa using List.find?_some hf
      have hp : p = (k, v) := by
        cases p
        simp only [Prod.mk.injEq]
        exact ⟨hkey, h⟩
      rwa [hp] at hmem

/-- The key list of `mapSet` is `jsSetInsert` on the key list. -/
theorem mapSet_keys {α : Type} (m : List (String × α)) (k : String) (v : α) :
    (mapSet m k v).map (·.1) = jsSetInsert (m.map (·.1)) k := by
  have hmem : mapHas m k = true ↔ k ∈ m.map (·.1) := by
    unfold mapHas
    rw [List.find?_isSome]
    simp
  unfold mapSet jsSetInsert
  by_cases hhas : mapHas m k
  · rw [if_pos hhas, if_pos (hmem.mp hhas), List.map_map]
    apply List.map_congr_left
    intro p hp
    by_cases hpk : p.1 = k <;> simp [hpk]
  · rw [if_neg hhas, if_neg (fun hk => hhas (hmem.mpr hk))]
    simp

/-- Key lists of `mapSet`-folds stay duplicate-free (the value may depend on
the accumulated map, covering both the count map and the join lookup maps). -/
theorem foldl_mapSet_keys_nodup {α β : Type} (l : List β) (keyf : β → String)
    (valf : List (String × α) → β → α) (m : List (String × α))
    (h : (m.map (·.1)).Nodup) :
    (((l.foldl (fun m x => mapSet m (keyf x) (valf m x)) m)).map (·.1)).Nodup := by
  induction l generalizing m with
  | nil => exact h
  | cons a t ih =>
      simp only [List.foldl_cons]
      exact ih _ (by rw [mapSet_keys]; exact jsSetInsert_nodup _ _ h)

/-- With duplicate-free keys, membership determines the lookup. -/
theorem mem_mapGet_of_nodup {α : Type} :
    ∀ (m : List (String × α)) (k : String) (v : α),
      (m.map (·.1)).Nodup → (k, v) ∈ m → mapGet m k = some v := by
  intro m
  induction m with
  | nil => intro k v _ h; cases h
  | cons p t ih =>
      intro k v hn h
      rw [List.map_cons, List.nodup_cons] at hn
      cases h with
      | head =>
          simp [mapGet, List.find?_cons]
      | tail _ hmem =>
          have hk : k ∈ t.map (·.1) := List.mem_map.mpr ⟨(k, v), hmem, rfl⟩
          have hne : ¬(p.1 = k) := fun he => hn.1 (he ▸ hk)
          have e2 : decide (p.1 = k) = false := decide_eq_false hne
          simp only [mapGet, List.find?_cons, e2]
          exact ih k v hn.2 hmem

/-- Claim C6: `validateMapping` never throws (it is a total function into
error strings) and, when the source file has parsed data: every entry whose
source column is missing from the source headers contributes an error naming
that column; every target column mapped more than once contributes an error
saying so; and a mapping passing all checks yields the empty sequence. -/
theorem c6_validateMapping (mapping : ColumnMapping) (sourceFile : ProcessedFile)
    (targetFile : Option ProcessedFile) (pd : ParsedData)
    (hpd : sourceFile.parsedData = some pd) :
    (∀ mp ∈ mapping.mappings, mp.sourceColumn ∉ pd.headers →
      MappingGenerator.sourceColumnError mp.sourceColumn ∈
        MappingGenerator.validateMapping mapping sourceFile targetFile) ∧
    (∀ c : String,
      1 < (mapping.mappings.map (fun mp => mp.targetColumn)).countP (fun x => x = c) →
      MappingGenerator.duplicateTargetError c ∈
        MappingGenerator.validateMapping mapping sourceFile targetFile) ∧
    ((∀ mp ∈ mapping.mappings, mp.sourceColumn ∈ pd.headers) →
      (∀ c : String,
        (mapping.mappings.map (fun mp => mp.targetColumn)).countP (fun x => x = c) ≤ 1) →
      (∀ tf, targetFile = some tf → ∀ tpd, tf.parsedData = some tpd →
        ∀ mp ∈ mapping.mappings, mp.targetColumn ∈ tpd.headers) →
      MappingGenerator.validateMapping mapping sourceFile targetFile = []) := by
  have keysNodup :
      ((MappingGenerator.countFold (mapping.mappings.map (fun mp => mp.targetColumn))).map
        (·.1)).Nodup := by
    unfold MappingGenerator.countFold
    exact foldl_mapSet_keys_nodup _ (fun x => x) (fun m x => (mapGet m x).getD 0 + 1) []
      List.nodup_nil
  refine ⟨?_, ?_, ?_⟩
  · intro mp hmp hnot
    simp only [MappingGenerator.validateMapping, hpd]
    apply List.mem_append.mpr
    left
    apply List.mem_append.mpr
    left
    rw [mem_foldl_errs]
    exact Or.inr ⟨mp, hmp, hnot, rfl⟩
  · intro c hc
    simp only [MappingGenerator.validateMapping, hpd]
    apply List.mem_append.mpr
    right
    have hne : ¬((mapping.mappings.map (fun mp => mp.targetColumn)).countP
        (fun x => x = c) = 0) := by omega
    have hget : mapGet (MappingGenerator.countFold
          (mapping.mappings.map (fun mp => mp.targetColumn))) c =
        some ((mapping.mappings.map (fun mp => mp.targetColumn)).countP (fun x => x = c)) := by
      rw [countFold_get, if_neg hne]
    have hmem := mapGet_mem _ _ _ hget
    exact List.mem_map.mpr ⟨_, List.mem_filter.mpr ⟨hmem, by simpa using hc⟩, rfl⟩
  · intro h1 h2 h3
    simp only [MappingGenerator.validateMapping, hpd]
    have e1 : mapping.mappings.foldl
        (fun es mp =>
          if mp.sourceColumn ∈ pd.headers then es
          else es ++ [MappingGenerator.sourceColumnError mp.sourceColumn]) [] = [] :=
      foldl_errs_nil _ _ _ _ h1
    have e3 : (MappingGenerator.countFold
          (mapping.mappings.map (fun mp => mp.targetColumn))).filter
        (fun p => 1 < p.2) = [] := by
      rw [List.filter_eq_nil_iff]
      intro q hq
      have hget : mapGet (MappingGenerator.countFold
            (mapping.mappings.map (fun mp => mp.targetColumn))) q.1 = some q.2 :=
        mem_mapGet_of_nodup _ q.1 q.2 keysNodup hq
      rw [countFold_get] at hget
      by_cases h0 : (mapping.mappings.map (fun mp => mp.targetColumn)).countP
          (fun x => x = q.1) = 0
      · rw [if_pos h0] at hget
        exact Option.noConfusion hget
      · rw [if_neg h0] at hget
        have hq2 : q.2 = (mapping.mappings.map (fun mp => mp.targetColumn)).countP
            (fun x => x = q.1) := (Option.some.inj hget).symm
        have := h2 q.1
        simp only [decide_eq_true_eq, not_lt]
        omega
    rw [e1, e3]
    cases htf : targetFile with
    | none => simp
    | some tf =>
        cases htpd : tf.parsedData with
        | none => simp [htpd]
        | some tpd =>
            have e2 : mapping.mappings.foldl
                (fun es mp =>
                  if mp.targetColumn ∈ tpd.headers then es
                  else es ++ [MappingGenerator.targetColumnError mp.targetColumn]) [] = [] :=
              foldl_errs_nil _ _ _ _ (fun mp hmp => h3 tf htf tpd htpd mp hmp)
            simp [htpd, e2]

/-- Claim C6, witness: a mapping with a missing source column and a doubled
target column produces both errors; an identity mapping over the present
header validates to the empty sequence. -/
theorem c6_validateMapping_witness :
    (MappingGenerator.sourceColumnError "x" ∈
      MappingGenerator.validateMapping
        { id := "m", sourceFileId := "f", targetFileId := none,
          mappings :=
            [{ sourceColumn := "x", targetColumn := "id", transform := none,
               transformParams := none },
             { sourceColumn := "k", targetColumn := "id", transform := none,
               transformParams := none }] }
        { id := "f", parsedData := some { headers := ["k"], rows := [] } } none) ∧
    (MappingGenerator.duplicateTargetError "id" ∈
      MappingGenerator.validateMapping
        { id := "m", sourceFileId := "f", targetFileId := none,
          mappings :=
            [{ sourceColumn := "x", targetColumn := "id", transform := none,
               transformParams := none },
             { sourceColumn := "k", targetColumn := "id", transform := none,
               transformParams := none }] }
        { id := "f", parsedData := some { headers := ["k"], rows := [] } } none) ∧
    (MappingGenerator.validateMapping
        { id := "m2", sourceFileId := "f", targetFileId := none,
          mappings :=
            [{ sourceColumn := "k", targetColumn := "k2", transform := none,
               transformParams := none }] }
        { id := "f", parsedData := some { headers := ["k"], rows := [] } } none = []) := by
  refine ⟨?_, ?_, ?_⟩
  · exact (c6_validateMapping _ _ none { headers := ["k"], rows := [] } rfl).1
      { sourceColumn := "x", targetColumn := "id", transform := none,
        transformParams := none } (by decide) (by decide)
  · exact (c6_validateMapping _ _ none { headers := ["k"], rows := [] } rfl).2.1
      "id" (by decide)
  · exact (c6_validateMapping _ _ none { headers := ["k"], rows := [] } rfl).2.2
      (by decide)
      (by
        intro c
        simp only [List.map_cons, List.map_nil, List.countP_cons, List.countP_nil]
        split <;> omega)
      (fun tf h => nomatch h)

/-- Setting an index to the element it already holds is the identity. -/
theorem list_set_get_self {α : Type} :
    ∀ (l : List α) (i : Nat) (a : α), l[i]? = some a → l.set i a = l := by
  intro l
  induction l with
  | nil => intro i a h; simp at h
  | cons x t ih =>
      intro i a h
      cases i with
      | zero =>
          simp only [List.getElem?_cons_zero, Option.some.injEq] at h
          rw [← h]
          rfl
      | succ n =>
          simp only [List.getElem?_cons_succ] at h
          simp only [List.set_cons_succ, ih n a h]

/-- The duplicate scans of `merge_values` and `keep_last` keep their `seen`
maps, emitted lengths and removal counts in lockstep. -/
theorem dedup_fold_sync (l : List Row) :
    ∀ acc1 acc2 : DataMerger.DedupAcc, acc1.seen = acc2.seen →
      acc1.result.length = acc2.result.length → acc1.removed = acc2.removed →
      (l.foldl (DataMerger.dedupStep .merge_values) acc1).seen =
        (l.foldl (DataMerger.dedupStep .keep_last) acc2).seen ∧
      (l.foldl (DataMerger.dedupStep .merge_values) acc1).result.length =
        (l.foldl (DataMerger.dedupStep .keep_last) acc2).result.length ∧
      (l.foldl (DataMerger.dedupStep .merge_values) acc1).removed =
        (l.foldl (DataMerger.dedupStep .keep_last) acc2).removed := by
  induction l with
  | nil => intro acc1 acc2 h1 h2 h3; exact ⟨h1, h2, h3⟩
  | cons row t ih =>
      intro acc1 acc2 h1 h2 h3
      simp only [List.foldl_cons]
      apply ih
      · simp only [DataMerger.dedupStep, h1]
        cases mapGet acc2.seen (rowKey row) <;> simp [h2]
      · simp only [DataMerger.dedupStep, h1]
        cases mapGet acc2.seen (rowKey row) <;> simp [h2, List.length_set]
      · simp only [DataMerger.dedupStep, h1]
        cases mapGet acc2.seen (rowKey row) <;> simp [h3]

/-- Under key-injectivity of the rows, the `merge_values` and `keep_last`
scans coincide exactly (the `keep_last` in-place replacement always stores
back the very row already there). -/
theorem dedup_fold_eq (data0 : List Row)
    (hinj : ∀ r1 ∈ data0, ∀ r2 ∈ data0, rowKey r1 = rowKey r2 → r1 = r2) :
    ∀ (l : List Row) (acc : DataMerger.DedupAcc),
      (∀ r ∈ l, r ∈ data0) →
      (∀ k i, mapGet acc.seen k = some i →
        ∃ r, acc.result[i]? = some r ∧ rowKey r = k ∧ r ∈ data0) →
      l.foldl (DataMerger.dedupStep .merge_values) acc =
        l.foldl (DataMerger.dedupStep .keep_last) acc := by
  intro l
  induction l with
  | nil => intro acc _ _; rfl
  | cons row t ih =>
      intro acc hl hInv
      have hrowmem : row ∈ data0 := hl row (List.mem_cons_self row t)
      simp only [List.foldl_cons]
      cases hseen : mapGet acc.seen (rowKey row) with
      | some i =>
          obtain ⟨r, hr, hkey, hrdata⟩ := hInv _ _ hseen
          have hrow : r = row := hinj r hrdata row hrowmem hkey
          have hset : acc.result.set i row = acc.result :=
            list_set_get_self _ _ _ (hrow ▸ hr)
          have hstep : DataMerger.dedupStep .merge_values acc row =
              DataMerger.dedupStep .keep_last acc row := by
            simp [DataMerger.dedupStep, hseen, hset]
          rw [hstep]
          apply ih _ (fun r hr => hl r (List.mem_cons_of_mem row hr))
          intro k j hj
          simp only [DataMerger.dedupStep, hseen] at hj ⊢
          obtain ⟨r', hr', hkey', hmem'⟩ := hInv _ _ hj
          exact ⟨r', by rw [hset]; exact hr', hkey', hmem'⟩
      | none =>
          have hstep : DataMerger.dedupStep .merge_values acc row =
              DataMerger.dedupStep .keep_last acc row := by
            simp [DataMerger.dedupStep, hseen]
          rw [hstep]
          apply ih _ (fun r hr => hl r (List.mem_cons_of_mem row hr))
          intro k j hj
          simp only [DataMerger.dedupStep, hseen] at hj
          rw [mapGet_mapSet] at hj
          by_cases hk : rowKey row = k
          · rw [if_pos hk] at hj
            have hjv : j = acc.result.length := (Option.some.inj hj).symm
            refine ⟨row, ?_, hk, hrowmem⟩
            rw [hjv]
            simp [DataMerger.dedupStep, hseen]
          · rw [if_neg hk] at hj
            obtain ⟨r', hr', hkey', hmem'⟩ := hInv _ _ hj
            have hjlt : j < acc.result.length := by
              by_contra hge
              rw [List.getElem?_eq_none (Nat.le_of_not_lt hge)] at hr'
              exact Option.noConfusion hr'
            refine ⟨r', ?_, hkey', hmem'⟩
            simp only [DataMerger.dedupStep, hseen]
            rw [List.getElem?_append, if_pos hjlt]
            exact hr'

/-- Claim C7, counterexample: a `Date` row and a string row holding the same
ISO text share one `JSON.stringify` key, so `merge_values` (which keeps the
first occurrence) and `keep_last` (which overwrites it) emit different rows
on `[[Date epoch], ["1970-01-01T00:00:00.000Z"]]`. -/
theorem c7_merge_values_counterexample :
    rowKey [Value.date isoEpoch] = rowKey [Value.str isoEpoch] ∧
    (DataMerger.handleDuplicates [[Value.date isoEpoch], [Value.str isoEpoch]]
        .merge_values).1 = [[Value.date isoEpoch]] ∧
    (DataMerger.handleDuplicates [[Value.date isoEpoch], [Value.str isoEpoch]]
        .keep_last).1 = [[Value.str isoEpoch]] ∧
    ¬(DataMerger.handleDuplicates [[Value.date isoEpoch], [Value.str isoEpoch]]
        .merge_values =
      DataMerger.handleDuplicates [[Value.date isoEpoch], [Value.str isoEpoch]]
        .keep_last) := by
  refine ⟨by decide, by decide, by decide, by decide⟩

/-- Claim C7 (amended): duplicate handling with `merge_values` always reports
the same `duplicatesRemoved` count as `keep_last`, and produces the same
output rows whenever rows with equal JSON serialisation are equal (which a
Date/string serialisation collision can violate; `merge_values` keeps the
first of two colliding rows where `keep_last` keeps the last). -/
theorem c7_merge_values_amended (data : List Row) :
    ((DataMerger.handleDuplicates data .merge_values).2 =
      (DataMerger.handleDuplicates data .keep_last).2) ∧
    ((∀ r1 ∈ data, ∀ r2 ∈ data, rowKey r1 = rowKey r2 → r1 = r2) →
      DataMerger.handleDuplicates data .merge_values =
        DataMerger.handleDuplicates data .keep_last) := by
  constructor
  · simp only [DataMerger.handleDuplicates]
    exact (dedup_fold_sync data ⟨[], [], 0⟩ ⟨[], [], 0⟩ rfl rfl rfl).2.2
  · intro hinj
    simp only [DataMerger.handleDuplicates]
    rw [dedup_fold_eq data hinj data ⟨[], [], 0⟩ (fun r hr => hr)
      (fun k i h => by simp [mapGet] at h)]
    simp

/-- Claim C7, witness: the amended theorem applied to
`[["a"], ["a"], ["b"]]`, whose rows are key-injective. -/
theorem c7_merge_values_amended_witness :
    ((DataMerger.handleDuplicates [[Value.str "a"], [Value.str "a"], [Value.str "b"]]
        .merge_values).2 =
      (DataMerger.handleDuplicates [[Value.str "a"], [Value.str "a"], [Value.str "b"]]
        .keep_last).2) ∧
    (DataMerger.handleDuplicates [[Value.str "a"], [Value.str "a"], [Value.str "b"]]
        .merge_values =
      DataMerger.handleDuplicates [[Value.str "a"], [Value.str "a"], [Value.str "b"]]
        .keep_last) :=
  ⟨(c7_merge_values_amended _).1, (c7_merge_values_amended _).2 (by decide)⟩

/-- Claim C5: `mergeFiles` is a total function into `MergeResult` (the
source's own top-level catch converts every `throw` into a result), and for
an empty file list or an empty mapping list it returns one of the two
descriptive input-error messages in `errors`, paired with an
empty-but-well-formed dataset (no headers, no rows, `rowCount` 0) and
all-zero statistics. -/
theorem c5_mergeFiles_empty_inputs (files : List ProcessedFile)
    (mappings : List ColumnMapping) (options : MergeOptions) (now : Int)
    (h : files = [] ∨ mappings = []) :
    ((DataMerger.mergeFiles files mappings options now).errors =
        ["No files provided for merging"] ∨
      (DataMerger.mergeFiles files mappings options now).errors =
        ["No column mappings provided"]) ∧
    (DataMerger.mergeFiles files mappings options now).dataset.headers = [] ∧
    (DataMerger.mergeFiles files mappings options now).dataset.data = [] ∧
    (DataMerger.mergeFiles files mappings options now).dataset.rowCount = 0 ∧
    (DataMerger.mergeFiles files mappings options now).stats =
      { totalRows := 0, mergedRows := 0, droppedRows := 0, duplicateRows := 0,
        nullValues := 0 } := by
  rcases h with rfl | rfl
  · simp [DataMerger.mergeFiles, DataMerger.emptyMergeResult]
  · by_cases hf : files.length = 0
    · simp [DataMerger.mergeFiles, hf, DataMerger.emptyMergeResult]
    · simp [DataMerger.mergeFiles, hf, DataMerger.emptyMergeResult]

/-- Claim C5, witness: the theorem applied to the empty file list. -/
theorem c5_mergeFiles_empty_inputs_witness :
    ((DataMerger.mergeFiles [] []
        { joinType := .inner, joinKey := none, handleDuplicates := .keep_first,
          validateTypes := true, maxRows := none } 0).errors =
        ["No files provided for merging"] ∨
      (DataMerger.mergeFiles [] []
        { joinType := .inner, joinKey := none, handleDuplicates := .keep_first,
          validateTypes := true, maxRows := none } 0).errors =
        ["No column mappings provided"]) ∧
    (DataMerger.mergeFiles [] []
        { joinType := .inner, joinKey := none, handleDuplicates := .keep_first,
          validateTypes := true, maxRows := none } 0).dataset.headers = [] ∧
    (DataMerger.mergeFiles [] []
        { joinType := .inner, joinKey := none, handleDuplicates := .keep_first,
          validateTypes := true, maxRows := none } 0).dataset.data = [] ∧
    (DataMerger.mergeFiles [] []
        { joinType := .inner, joinKey := none, handleDuplicates := .keep_first,
          validateTypes := true, maxRows := none } 0).dataset.rowCount = 0 ∧
    (DataMerger.mergeFiles [] []
        { joinType := .inner, joinKey := none, handleDuplicates := .keep_first,
          validateTypes := true, maxRows := none } 0).stats =
      { totalRows := 0, mergedRows := 0, droppedRows := 0, duplicateRows := 0,
        nullValues := 0 } :=
  c5_mergeFiles_empty_inputs [] []
    { joinType := .inner, joinKey := none, handleDuplicates := .keep_first,
      validateTypes := true, maxRows := none } 0 (Or.inl rfl)

/-- Claim C9: the merge is a deterministic function of its explicit inputs —
two calls with identical files, mappings and options agree on everything
except the dataset's `id` and `createdAt`, which are the only fields fed by
the ambient clock: headers, record data, rowCount, column types, name,
source-file ids, statistics, warnings and errors all coincide. -/
theorem c9_merge_deterministic (files : List ProcessedFile)
    (mappings : List ColumnMapping) (options : MergeOptions) (n1 n2 : Int) :
    (DataMerger.mergeFiles files mappings options n1).dataset.headers =
      (DataMerger.mergeFiles files mappings options n2).dataset.headers ∧
    (DataMerger.mergeFiles files mappings options n1).dataset.data =
      (DataMerger.mergeFiles files mappings options n2).dataset.data ∧
    (DataMerger.mergeFiles files mappings options n1).dataset.rowCount =
      (DataMerger.mergeFiles files mappings options n2).dataset.rowCount ∧
    (DataMerger.mergeFiles files mappings options n1).dataset.columnTypes =
      (DataMerger.mergeFiles files mappings options n2).dataset.columnTypes ∧
    (DataMerger.mergeFiles files mappings options n1).dataset.name =
      (DataMerger.mergeFiles files mappings options n2).dataset.name ∧
    (DataMerger.mergeFiles files mappings options n1).dataset.sourceFiles =
      (DataMerger.mergeFiles files mappings options n2).dataset.sourceFiles ∧
    (DataMerger.mergeFiles files mappings options n1).stats =
      (DataMerger.mergeFiles files mappings options n2).stats ∧
    (DataMerger.mergeFiles files mappings options n1).warnings =
      (DataMerger.mergeFiles files mappings options n2).warnings ∧
    (DataMerger.mergeFiles files mappings options n1).errors =
      (DataMerger.mergeFiles files mappings options n2).errors := by
  simp only [DataMerger.mergeFiles]
  split_ifs <;> simp [DataMerger.emptyMergeResult]

/-- Claim C1, counterexample: running the spec's inner-join example through
`mergeFiles` (left `[{k:"1",v:"a"}]`, right `[{k:"1",v:"b"},{k:"2",v:"c"}]`,
joinKey `"k"`) emits exactly one merged row, but `droppedRowCount` is `0`,
not `1` — the inner-join loop iterates the left map only and counts only
left keys missing on the right; the right's unmatched key `"2"` is never
counted. -/
theorem c1_inner_join_counterexample :
    c1result.dataset.rowCount = 1 ∧
    c1result.dataset.data = [[("k", Value.str "1"), ("v", Value.str "a")]] ∧
    c1result.stats.droppedRows = 0 ∧
    ¬(c1result.stats.droppedRows = 1) := by
  refine ⟨by decide, by decide, by decide, by decide⟩

/-- Claim C1 (amended): on the inner-join example the merge emits exactly
one merged row (for key `"1"`, keeping the left file's values) and the
statistics report `droppedRowCount == 0`: an inner join counts only
left-side unmatched keys as dropped, so the right side's unmatched key `"2"`
is not counted.  The clock value is irrelevant to these fields. -/
theorem c1_inner_join_amended (now : Int) :
    (DataMerger.mergeFiles [c1file1, c1file2]
      [identityMapping "f1" ["k", "v"], identityMapping "f2" ["k", "v"]]
      c1options now).dataset.rowCount = 1 ∧
    (DataMerger.mergeFiles [c1file1, c1file2]
      [identityMapping "f1" ["k", "v"], identityMapping "f2" ["k", "v"]]
      c1options now).dataset.data = [[("k", Value.str "1"), ("v", Value.str "a")]] ∧
    (DataMerger.mergeFiles [c1file1, c1file2]
      [identityMapping "f1" ["k", "v"], identityMapping "f2" ["k", "v"]]
      c1options now).stats =
      { totalRows := 3, mergedRows := 1, droppedRows := 0, duplicateRows := 0,
        nullValues := 0 } :=
  ⟨rfl, rfl, rfl⟩

/-- Claim C2, counterexample: with rows `[a, a, b]`, `keep_last` duplicates
and `maxRows = 1`, the pre-truncation merged list has 2 rows, so the claim
predicts `droppedRowCount == 2 - 1 == 1`; the code instead adds
`totalRows - maxRows == 3 - 1 == 2`. -/
theorem c2_maxrows_counterexample :
    (DataMerger.performMerge
        [{ headers := ["x"], data := [[.str "a"], [.str "a"], [.str "b"]] }] ["x"]
        { joinType := .inner, joinKey := none, handleDuplicates := .keep_last,
          validateTypes := true, maxRows := none }).data.length = 2 ∧
    (DataMerger.performMerge
        [{ headers := ["x"], data := [[.str "a"], [.str "a"], [.str "b"]] }] ["x"]
        { joinType := .inner, joinKey := none, handleDuplicates := .keep_last,
          validateTypes := true, maxRows := some 1 }).stats.droppedRows = 2 ∧
    ¬((2 : Int) = 2 - 1) := by
  refine ⟨by decide, by decide, by decide⟩

/-- Claim C2 (amended): when `maxRows` is a truthy cap below the merged row
count, `performMerge` truncates to the first `maxRows` rows and adds
`totalRows - maxRows` (total input rows across files minus the cap, not the
pre-truncation merged length minus the cap) to `droppedRowCount`; all other
statistics equal those of the uncapped run.  In particular, merging 100
aligned rows with `maxRows = 10` yields `mergedRowCount == 10` and
`droppedRowCount == 90`. -/
theorem c2_maxrows_amended (tfs : List TransformedFile) (uh : List String)
    (options : MergeOptions) (m : Nat) (hm : options.maxRows = some m) (hm0 : m ≠ 0)
    (hlen : (DataMerger.performMerge tfs uh
      { options with maxRows := none }).data.length > m) :
    (DataMerger.performMerge tfs uh options).data =
      (DataMerger.performMerge tfs uh { options with maxRows := none }).data.take m ∧
    (DataMerger.performMerge tfs uh options).stats.totalRows =
      (DataMerger.performMerge tfs uh { options with maxRows := none }).stats.totalRows ∧
    (DataMerger.performMerge tfs uh options).stats.mergedRows = (m : Int) ∧
    (DataMerger.performMerge tfs uh options).stats.droppedRows =
      (DataMerger.performMerge tfs uh
        { options with maxRows := none }).stats.droppedRows +
      ((DataMerger.performMerge tfs uh
        { options with maxRows := none }).stats.totalRows - (m : Int)) ∧
    (DataMerger.performMerge tfs uh options).stats.duplicateRows =
      (DataMerger.performMerge tfs uh
        { options with maxRows := none }).stats.duplicateRows ∧
    (DataMerger.performMerge tfs uh options).stats.nullValues =
      (DataMerger.performMerge tfs uh { options with maxRows := none }).stats.nullValues := by
  cases options with
  | mk jt jk hd vt mr =>
      simp only [MergeOptions.maxRows] at hm
      subst hm
      simp only [DataMerger.performMerge] at hlen ⊢
      rw [if_pos (And.intro hm0 hlen)]
      repeat' apply And.intro
      all_goals first
        | rfl
        | trivial
        | (simp only [List.length_take]
           rw [Nat.min_eq_left (Nat.le_of_lt hlen)])

/-- Claim C2, witness: the amended theorem applied to 100 aligned rows with
`maxRows = 10` gives `mergedRowCount 10` and `droppedRowCount 90`. -/
theorem c2_maxrows_amended_witness :
    (DataMerger.performMerge
        [{ headers := ["x"], data := (List.range 100).map (fun i => [Value.num (i : Int)]) }]
        ["x"]
        { joinType := .inner, joinKey := none, handleDuplicates := .keep_first,
          validateTypes := true, maxRows := some 10 }).stats.mergedRows = 10 ∧
    (DataMerger.performMerge
        [{ headers := ["x"], data := (List.range 100).map (fun i => [Value.num (i : Int)]) }]
        ["x"]
        { joinType := .inner, joinKey := none, handleDuplicates := .keep_first,
          validateTypes := true, maxRows := some 10 }).stats.droppedRows = 90 := by
  have h := c2_maxrows_amended
    [{ headers := ["x"], data := (List.range 100).map (fun i => [Value.num (i : Int)]) }]
    ["x"]
    { joinType := .inner, joinKey := none, handleDuplicates := .keep_first,
      validateTypes := true, maxRows := some 10 }
    10 rfl (by decide) (by decide)
  refine ⟨h.2.2.1, ?_⟩
  rw [h.2.2.2.1]
  decide

/-- `mapHas` is membership in the key list. -/
theorem mapHas_iff_mem_keys {α : Type} (m : List (String × α)) (k : String) :
    mapHas m k = true ↔ k ∈ m.map (·.1) := by
  unfold mapHas
  rw [List.find?_isSome]
  simp

/-- `mapSet` preserves an entry predicate that the inserted pair satisfies. -/
theorem mapSet_entry_pred {α : Type} (P : String × α → Prop) (m : List (String × α))
    (k : String) (v : α) (hkv : P (k, v)) (hm : ∀ p ∈ m, P p) :
    ∀ p ∈ mapSet m k v, P p := by
  unfold mapSet
  by_cases hhas : mapHas m k
  · rw [if_pos hhas]
    intro p hp
    rw [List.mem_map] at hp
    obtain ⟨q, hq, rfl⟩ := hp
    by_cases hqk : q.1 = k
    · rw [if_pos hqk]; exact hkv
    · rw [if_neg hqk]; exact hm q hq
  · rw [if_neg hhas]
    intro p hp
    rcases List.mem_append.mp hp with h | h
    · exact hm p h
    · rw [List.mem_singleton] at h
      rw [h]
      exact hkv

/-- Lookup in the join lookup map build, relative to a starting map: the
last matching row wins. -/
theorem buildKeyMap_get_aux (idx : Nat) (l : List Row) (m : List (String × Row))
    (k : String) :
    mapGet (l.foldl (fun m row => mapSet m (DataMerger.joinKeyString idx row) row) m) k =
      match l.reverse.find? (fun row => DataMerger.joinKeyString idx row = k) with
      | some r => some r
      | none => mapGet m k := by
  induction l generalizing m with
  | nil => simp
  | cons row t ih =>
      simp only [List.foldl_cons, List.reverse_cons, List.find?_append]
      rw [ih]
      cases hfind : t.reverse.find? (fun row => DataMerger.joinKeyString idx row = k) with
      | some r => rfl
      | none =>
          simp only [Option.none_or]
          rw [mapGet_mapSet]
          by_cases hk : DataMerger.joinKeyString idx row = k
          · have e : decide (DataMerger.joinKeyString idx row = k) = true := decide_eq_true hk
            simp [List.find?_cons, e, if_pos hk]
          · have e : decide (DataMerger.joinKeyString idx row = k) = false := decide_eq_false hk
            simp [List.find?_cons, e, if_neg hk]

/-- Each side's lookup map holds, for every key, exactly the LAST row of
that side whose stringified join-key equals the key. -/
theorem buildKeyMap_get (idx : Nat) (l : List Row) (k : String) :
    mapGet (DataMerger.buildKeyMap idx l) k =
      l.reverse.find? (fun row => DataMerger.joinKeyString idx row = k) := by
  unfold DataMerger.buildKeyMap
  rw [buildKeyMap_get_aux]
  cases l.reverse.find? (fun row => DataMerger.joinKeyString idx row = k) <;> rfl

/-- Every entry of the lookup map is keyed by its row's stringified key. -/
theorem buildKeyMap_entry_key (idx : Nat) (l : List Row) :
    ∀ p ∈ DataMerger.buildKeyMap idx l, DataMerger.joinKeyString idx p.2 = p.1 := by
  unfold DataMerger.buildKeyMap
  suffices h : ∀ (l : List Row) (m : List (String × Row)),
      (∀ p ∈ m, DataMerger.joinKeyString idx p.2 = p.1) →
      ∀ p ∈ l.foldl (fun m row => mapSet m (DataMerger.joinKeyString idx row) row) m,
        DataMerger.joinKeyString idx p.2 = p.1 by
    exact h l [] (by intro p hp; cases hp)
  intro l
  induction l with
  | nil => intro m hm; exact hm
  | cons row t ih =>
      intro m hm
      simp only [List.foldl_cons]
      exact ih _ (mapSet_entry_pred _ m _ row rfl hm)

/-- The lookup map's key list is the set of stringified keys of the side, in
first-appearance order. -/
theorem buildKeyMap_keys (idx : Nat) (l : List Row) :
    (DataMerger.buildKeyMap idx l).map (·.1) =
      jsSetList (l.map (DataMerger.joinKeyString idx)) := by
  unfold DataMerger.buildKeyMap jsSetList
  suffices h : ∀ (l : List Row) (m : List (String × Row)),
      (l.foldl (fun m row => mapSet m (DataMerger.joinKeyString idx row) row) m).map (·.1) =
        (l.map (DataMerger.joinKeyString idx)).foldl jsSetInsert (m.map (·.1)) by
    simpa using h l []
  intro l
  induction l with
  | nil => intro m; rfl
  | cons row t ih =>
      intro m
      simp only [List.foldl_cons, List.map_cons]
      rw [ih, mapSet_keys]

/-- The lookup map's keys are pairwise distinct. -/
theorem buildKeyMap_keys_nodup (idx : Nat) (l : List Row) :
    ((DataMerger.buildKeyMap idx l).map (·.1)).Nodup := by
  rw [buildKeyMap_keys]
  exact jsSetList_nodup _

/-- Rebuilding the lookup map from its stored rows reproduces it: folding
`mapSet` over rows whose keys are fresh and pairwise distinct appends each
entry. -/
theorem buildKeyMap_of_entries_aux (idx : Nat) :
    ∀ (m acc : List (String × Row)),
      (∀ p ∈ m, DataMerger.joinKeyString idx p.2 = p.1) →
      ((acc.map (·.1)) ++ (m.map (·.1))).Nodup →
      (m.map (·.2)).foldl (fun m row => mapSet m (DataMerger.joinKeyString idx row) row) acc =
        acc ++ m := by
  intro m
  induction m with
  | nil => intro acc _ _; simp
  | cons p rest ih =>
      intro acc hentry hnodup
      simp only [List.map_cons, List.foldl_cons]
      have hkey : DataMerger.joinKeyString idx p.2 = p.1 :=
        hentry p (List.mem_cons_self p rest)
      have hfresh : p.1 ∉ acc.map (·.1) := by
        intro hmem
        have := (List.nodup_append.mp (by simpa using hnodup)).2.2
        exact this hmem (by simp)
      have hset : mapSet acc (DataMerger.joinKeyString idx p.2) p.2 = acc ++ [p] := by
        rw [hkey]
        unfold mapSet
        rw [if_neg (fun hh => hfresh ((mapHas_iff_mem_keys acc p.1).mp hh))]
      rw [hset, ih (acc ++ [p])
        (fun q hq => hentry q (List.mem_cons_of_mem p hq))
        (by
          simp only [List.map_append, List.map_cons, List.map_nil] at hnodup ⊢
          have : acc.map (·.1) ++ [p.1] ++ rest.map (·.1) =
              acc.map (·.1) ++ ([p.1] ++ rest.map (·.1)) := by simp
          rw [this]
          simpa using hnodup)]
      simp

/-- Rebuilding the lookup map from its stored rows reproduces it. -/
theorem buildKeyMap_of_entries (idx : Nat) (l : List Row) :
    DataMerger.buildKeyMap idx ((DataMerger.buildKeyMap idx l).map (·.2)) =
      DataMerger.buildKeyMap idx l := by
  have h := buildKeyMap_of_entries_aux idx (DataMerger.buildKeyMap idx l) []
    (buildKeyMap_entry_key idx l)
    (by simpa using buildKeyMap_keys_nodup idx l)
  unfold DataMerger.buildKeyMap at h ⊢
  rw [h]
  simp

/-- The join emits at most one row per entry of each side's lookup map. -/
theorem joinFromMaps_length_le (LM RM : List (String × Row)) (headers : List String)
    (t : JoinType) :
    (DataMerger.joinFromMaps LM RM headers t).1.length ≤ LM.length + RM.length := by
  cases t with
  | inner =>
      simp only [DataMerger.joinFromMaps]
      exact le_trans (List.length_filterMap_le _ _) (Nat.le_add_right _ _)
  | left =>
      simp only [DataMerger.joinFromMaps, List.length_map]
      exact Nat.le_add_right _ _
  | right =>
      simp only [DataMerger.joinFromMaps, List.length_map]
      exact Nat.le_add_left _ _
  | full =>
      simp only [DataMerger.joinFromMaps, List.length_append, List.length_map]
      have := List.length_filter_le (fun p => !mapHas LM p.1) RM
      omega

/-- Claim C10: in every key-based join (join key present among the unified
headers), (0) falsy key cells (null/missing, `0`, `""`) collapse to the
empty-string key; (1) a side's lookup map retains, per distinct stringified
key, only the last row of that side with that key; (2) the join output has
at most one row per distinct key per side; and (3) the whole result — rows
and `droppedRows` alike — is unchanged when each side is first reduced to
its last row per key, i.e. the silently discarded earlier rows never reach
the output and contribute nothing to `droppedRows`. -/
theorem c10_key_join_last_wins (l r : List Row) (headers : List String)
    (joinKey : String) (t : JoinType) (idx : Nat)
    (hidx : headers.findIdx? (fun h => h = joinKey) = some idx) :
    (∀ row : Row, jsFalsy ((row[idx]?).getD Value.vnull) = true →
      DataMerger.joinKeyString idx row = "") ∧
    (∀ k, mapGet (DataMerger.buildKeyMap idx l) k =
      l.reverse.find? (fun row => DataMerger.joinKeyString idx row = k)) ∧
    ((DataMerger.performKeyBasedJoin l r headers joinKey t).1.length ≤
      (jsSetList (l.map (DataMerger.joinKeyString idx))).length +
      (jsSetList (r.map (DataMerger.joinKeyString idx))).length) ∧
    (DataMerger.performKeyBasedJoin l r headers joinKey t =
      DataMerger.performKeyBasedJoin (DataMerger.lastPerKey idx l)
        (DataMerger.lastPerKey idx r) headers joinKey t) := by
  refine ⟨?_, fun k => buildKeyMap_get idx l k, ?_, ?_⟩
  · intro row hf
    unfold DataMerger.joinKeyString
    rw [if_pos hf]
  · unfold DataMerger.performKeyBasedJoin
    rw [hidx]
    calc (DataMerger.joinFromMaps (DataMerger.buildKeyMap idx l)
            (DataMerger.buildKeyMap idx r) headers t).1.length
        ≤ (DataMerger.buildKeyMap idx l).length + (DataMerger.buildKeyMap idx r).length :=
          joinFromMaps_length_le _ _ headers t
      _ = (jsSetList (l.map (DataMerger.joinKeyString idx))).length +
            (jsSetList (r.map (DataMerger.joinKeyString idx))).length := by
          rw [← buildKeyMap_keys idx l, ← buildKeyMap_keys idx r]
          simp
  · unfold DataMerger.performKeyBasedJoin DataMerger.lastPerKey
    rw [hidx]
    show DataMerger.joinFromMaps (DataMerger.buildKeyMap idx l)
        (DataMerger.buildKeyMap idx r) headers t =
      DataMerger.joinFromMaps
        (DataMerger.buildKeyMap idx ((DataMerger.buildKeyMap idx l).map (·.2)))
        (DataMerger.buildKeyMap idx ((DataMerger.buildKeyMap idx r).map (·.2))) headers t
    rw [buildKeyMap_of_entries idx l, buildKeyMap_of_entries idx r]

/-- Claim C10, witness: the theorem applied to a left side with a repeated
key `"1"`; the invariance instance and the last-wins lookup are exhibited
concretely. -/
theorem c10_key_join_last_wins_witness :
    (DataMerger.performKeyBasedJoin
        [[Value.str "1", Value.str "a"], [Value.str "1", Value.str "z"]]
        [[Value.str "1", Value.str "b"]] ["k", "v"] "k" .inner =
      DataMerger.performKeyBasedJoin
        (DataMerger.lastPerKey 0
          [[Value.str "1", Value.str "a"], [Value.str "1", Value.str "z"]])
        (DataMerger.lastPerKey 0 [[Value.str "1", Value.str "b"]])
        ["k", "v"] "k" .inner) ∧
    (mapGet (DataMerger.buildKeyMap 0
        [[Value.str "1", Value.str "a"], [Value.str "1", Value.str "z"]]) "1" =
      some [Value.str "1", Value.str "z"]) := by
  have h := c10_key_join_last_wins
    [[Value.str "1", Value.str "a"], [Value.str "1", Value.str "z"]]
    [[Value.str "1", Value.str "b"]] ["k", "v"] "k" .inner 0 (by decide)
  refine ⟨h.2.2.2, ?_⟩
  rw [h.2.1 "1"]
  decide

/-- Claim C4, witness: the amended theorem applied to a concrete column of
3 strings and 3 numbers (6 non-null values, dominant fraction 1/2). -/
theorem c4_mixed_amended_witness :
    ((detectColumnTypes ["a"]
        [[.str "x"], [.str "y"], [.str "z"], [.num 1], [.num 2], [.num 3]])[0]?).map
        (fun d => (d.type, d.confidence)) = some (DataType.mixed, 1/2) :=
  c4_mixed_amended ["a"] [[.str "x"], [.str "y"], [.str "z"], [.num 1], [.num 2], [.num 3]]
    0 (by decide) (by decide)
    (by
      have hd : dominantOf (columnCellsAt
          [[.str "x"], [.str "y"], [.str "z"], [.num 1], [.num 2], [.num 3]] 0) =
          (DataType.string, 3) := by decide
      have hlen : (columnCellsAt
          [[.str "x"], [.str "y"], [.str "z"], [.num 1], [.num 2], [.num 3]] 0).length = 6 := by
        decide
      rw [hd, hlen]
      norm_num)
